import Mathlib

/-!
Verification development for the VendorX procurement engine.

The numeric model uses exact rationals (ℚ) for Python floats; Python's
`round(x, 2)` is modelled as rounding `100 * x` to the nearest integer
(`roundTo2`).  Python exceptions are modelled with `Except`, `None` with
`Option`, and the randomized draws of the vendor simulation are passed in
as explicit parameters.
-/

namespace VendorX

/-- Model of Python `round(x, 2)`: round to the nearest hundredth. -/
def roundTo2 (q : ℚ) : ℚ := (round (q * 100) : ℚ) / 100

/-- `config.MAX_PRICE`: normalization ceiling for prices (INR). -/
def MAX_PRICE : ℚ := 830000

/-- `config.MAX_DELIVERY`: normalization ceiling for delivery days. -/
def MAX_DELIVERY : ℚ := 14

/-- The scoring weight triple of `config.SCORE_WEIGHTS`. -/
structure Weights where
  price : ℚ
  delivery : ℚ
  reliability : ℚ
  deriving DecidableEq

/-- `config.SCORE_WEIGHTS = {price: 0.50, delivery: 0.30, reliability: 0.20}`. -/
def SCORE_WEIGHTS : Weights := ⟨1/2, 3/10, 1/5⟩

/-- `vendors.compute_score`: weighted 0-100 score of a quote, with the price
and delivery normalizations clamped at zero and the result rounded to two
decimals. -/
def compute_score (price delivery reliability : ℚ) : ℚ :=
  let price_norm := max 0 (1 - price / MAX_PRICE)
  let delivery_norm := max 0 (1 - delivery / MAX_DELIVERY)
  let reliability_norm := reliability
  roundTo2 (price_norm * SCORE_WEIGHTS.price * 100 +
    delivery_norm * SCORE_WEIGHTS.delivery * 100 +
    reliability_norm * SCORE_WEIGHTS.reliability * 100)

/-- A quote dict as produced by `vendors.simulate_vendor_api` and consumed by
`analyzer.choose_best_supplier`: keys `name`, `price`, `delivery`,
`reliability`, `penalty_rate`, `score`. -/
structure Quote where
  name : String
  price : ℚ
  delivery : ℚ
  reliability : ℚ
  penalty_rate : ℚ
  score : ℚ
  deriving DecidableEq

/-- Python `max(suppliers, key=lambda x: x["score"])`: starting from the first
element, a later element replaces the current maximum only when its key is
strictly greater, so the FIRST element of maximal score is returned; `none`
models the `ValueError` raised on an empty sequence. -/
def pythonMaxScore (suppliers : List Quote) : Option Quote :=
  match suppliers with
  | [] => none
  | x :: xs => some (xs.foldl (fun b s => if b.score < s.score then s else b) x)

/-- Python `min(suppliers, key=lambda x: x["price"])`: the first element of
minimal price. -/
def pythonMinPrice (suppliers : List Quote) : Option Quote :=
  match suppliers with
  | [] => none
  | x :: xs => some (xs.foldl (fun b s => if s.price < b.price then s else b) x)

/-- The data reported by `analyzer.choose_best_supplier`: the chosen supplier,
the cheapest supplier quoted in the explanation, and the `filtered_out` list
the explanation prints when constraints are given.  The explanation string
itself is a fixed textual rendering of exactly these values and is not
modelled separately. -/
structure AnalyzeResult where
  best : Quote
  cheapest : Quote
  filtered_out : List Quote
  deriving DecidableEq

/-- `analyzer.choose_best_supplier(suppliers, cheapest_supplier, budget,
deadline)`.  `best = max(suppliers, key=score)` over ALL suppliers (the
`ValueError` of `max` on an empty list is `Except.error`); `cheapest` falls
back to `min(suppliers, key=price)` when no `cheapest_supplier` is passed;
`filtered_out = [s for s in suppliers if s.price > budget or s.delivery >
deadline]` is computed only when both `budget` and `deadline` are given. -/
def choose_best_supplier (suppliers : List Quote) (cheapest_supplier : Option Quote)
    (budget deadline : Option ℚ) : Except String AnalyzeResult :=
  match pythonMaxScore suppliers with
  | none => Except.error "ValueError: max() arg is an empty sequence"
  | some best =>
    let cheapest := match cheapest_supplier with
      | some c => c
      | none => (pythonMinPrice suppliers).getD best
    let filtered_out := match budget, deadline with
      | some b, some dl =>
        suppliers.filter (fun s => decide (b < s.price ∨ dl < s.delivery))
      | _, _ => []
    Except.ok ⟨best, cheapest, filtered_out⟩

/-- A quote `s` is eligible for constraints `(b, dl)` when `s.price ≤ b` and
`s.delivery ≤ dl` (spec §4.5 step 1). -/
def eligibleQ (b dl : ℚ) (s : Quote) : Prop := s.price ≤ b ∧ s.delivery ≤ dl

instance (b dl : ℚ) (s : Quote) : Decidable (eligibleQ b dl s) := by
  unfold eligibleQ; infer_instance

/-- The fold behind `pythonMaxScore` returns an element of `x :: xs`. -/
theorem foldlMaxScore_mem (x : Quote) (xs : List Quote) :
    xs.foldl (fun b s => if b.score < s.score then s else b) x ∈ x :: xs := by
  induction xs generalizing x with
  | nil => simp
  | cons y ys ih =>
    have h := ih (if x.score < y.score then y else x)
    simp only [List.foldl_cons]
    rcases List.mem_cons.mp h with h | h
    · rw [h]
      split
      · simp
      · simp
    · simp [h]

/-- The fold behind `pythonMaxScore` dominates every element of `x :: xs`
in score. -/
theorem foldlMaxScore_ge (x : Quote) (xs : List Quote) :
    ∀ t ∈ x :: xs,
      t.score ≤ (xs.foldl (fun b s => if b.score < s.score then s else b) x).score := by
  induction xs generalizing x with
  | nil =>
    intro t ht
    rw [List.mem_singleton] at ht
    simp [ht]
  | cons y ys ih =>
    intro t ht
    simp only [List.foldl_cons]
    have hx : x.score ≤ (if x.score < y.score then y else x).score := by
      split
      · exact le_of_lt (by assumption)
      · exact le_rfl
    have hy : y.score ≤ (if x.score < y.score then y else x).score := by
      split
      · exact le_rfl
      · exact le_of_not_lt (by assumption)
    have hhead := ih (if x.score < y.score then y else x) _ (List.mem_cons_self _ _)
    rcases List.mem_cons.mp ht with rfl | ht2
    · exact le_trans hx hhead
    · rcases List.mem_cons.mp ht2 with rfl | ht3
      · exact le_trans hy hhead
      · exact ih _ t (List.mem_cons_of_mem _ ht3)

/-- `pythonMaxScore` of a list returns a member of the list. -/
theorem pythonMaxScore_mem {l : List Quote} {m : Quote}
    (h : pythonMaxScore l = some m) : m ∈ l := by
  cases l with
  | nil => simp [pythonMaxScore] at h
  | cons x xs =>
    simp only [pythonMaxScore, Option.some.injEq] at h
    rw [← h]
    exact foldlMaxScore_mem x xs

/-- `pythonMaxScore` dominates every member of the list in score. -/
theorem pythonMaxScore_ge {l : List Quote} {m : Quote}
    (h : pythonMaxScore l = some m) : ∀ t ∈ l, t.score ≤ m.score := by
  cases l with
  | nil => simp [pythonMaxScore] at h
  | cons x xs =>
    simp only [pythonMaxScore, Option.some.injEq] at h
    rw [← h]
    exact foldlMaxScore_ge x xs

/-- `pythonMaxScore` succeeds exactly on non-empty lists. -/
theorem pythonMaxScore_isSome {l : List Quote} (h : l ≠ []) :
    ∃ m, pythonMaxScore l = some m := by
  cases l with
  | nil => exact absurd rfl h
  | cons x xs => exact ⟨_, rfl⟩

/-- Unfolding lemma: when `max` succeeds, `choose_best_supplier` returns the
record built from it. -/
theorem choose_best_supplier_eq_of_max {l : List Quote} {m : Quote}
    (h : pythonMaxScore l = some m) (c : Option Quote) (bq dlq : Option ℚ) :
    choose_best_supplier l c bq dlq = Except.ok
      ⟨m,
       (match c with
        | some cc => cc
        | none => (pythonMinPrice l).getD m),
       (match bq, dlq with
        | some b, some dl => l.filter (fun s => decide (b < s.price ∨ dl < s.delivery))
        | _, _ => [])⟩ := by
  unfold choose_best_supplier
  rw [h]

/-- C1: the claim says the winner is the head of the ranked ELIGIBLE quotes,
hence satisfies the budget/deadline constraints whenever an eligible quote
exists.  Counterexample: quote A is eligible for budget 100 / deadline 5, yet
the engine picks quote B (higher score) which violates both constraints. -/
theorem C1_counterexample :
    eligibleQ 100 5 ⟨"A", 10, 1, 1, 0, 50⟩ ∧
    choose_best_supplier [⟨"A", 10, 1, 1, 0, 50⟩, ⟨"B", 1000, 9, 1, 0, 90⟩]
        none (some 100) (some 5) =
      Except.ok ⟨⟨"B", 1000, 9, 1, 0, 90⟩, ⟨"A", 10, 1, 1, 0, 50⟩,
        [⟨"B", 1000, 9, 1, 0, 90⟩]⟩ ∧
    ¬ eligibleQ 100 5 ⟨"B", 1000, 9, 1, 0, 90⟩ :=
  ⟨by decide, rfl, by decide⟩

/-- C1 (amended): for every non-empty quote collection with both constraints
given, the engine computes `filtered_out` as exactly the complement of the
eligible set (a true partition), but the winner is the first quote of maximal
score over ALL quotes — eligibility plays no part in the selection. -/
theorem C1_winner_global_max (suppliers : List Quote) (c : Option Quote)
    (b dl : ℚ) (hne : suppliers ≠ []) :
    ∃ r, choose_best_supplier suppliers c (some b) (some dl) = Except.ok r ∧
      r.best ∈ suppliers ∧ (∀ t ∈ suppliers, t.score ≤ r.best.score) ∧
      r.filtered_out = suppliers.filter (fun s => decide (¬ eligibleQ b dl s)) ∧
      ∀ s ∈ suppliers, s ∈ r.filtered_out ↔ ¬ eligibleQ b dl s := by
  obtain ⟨m, hm⟩ := pythonMaxScore_isSome hne
  have hfc : suppliers.filter (fun s => decide (b < s.price ∨ dl < s.delivery)) =
      suppliers.filter (fun s => decide (¬ eligibleQ b dl s)) := by
    apply List.filter_congr
    intro s _
    apply decide_eq_decide.mpr
    simp only [eligibleQ, not_and_or, not_le]
  refine ⟨_, choose_best_supplier_eq_of_max hm c (some b) (some dl),
    pythonMaxScore_mem hm, pythonMaxScore_ge hm, hfc, ?_⟩
  intro s hs
  show s ∈ suppliers.filter (fun s => decide (b < s.price ∨ dl < s.delivery)) ↔
    ¬ eligibleQ b dl s
  rw [hfc]
  simp [List.mem_filter, hs]

/-- Witness for `C1_winner_global_max` at a concrete one-quote collection. -/
theorem C1_witness :
    ∃ r, choose_best_supplier [⟨"A", 10, 1, 1, 0, 50⟩] none (some 100) (some 5) =
        Except.ok r ∧
      r.best ∈ [(⟨"A", 10, 1, 1, 0, 50⟩ : Quote)] ∧
      (∀ t ∈ [(⟨"A", 10, 1, 1, 0, 50⟩ : Quote)], t.score ≤ r.best.score) ∧
      r.filtered_out =
        List.filter (fun s => decide (¬ eligibleQ 100 5 s)) [⟨"A", 10, 1, 1, 0, 50⟩] ∧
      ∀ s ∈ [(⟨"A", 10, 1, 1, 0, 50⟩ : Quote)],
        s ∈ r.filtered_out ↔ ¬ eligibleQ 100 5 s :=
  C1_winner_global_max [⟨"A", 10, 1, 1, 0, 50⟩] none 100 5 (by decide)

/-- C2: the claim says an empty eligible set (including an empty input) is a
valid terminal state with `winner = none` and no error.  Counterexample: on an
empty quote collection the engine raises `ValueError` from `max`. -/
theorem C2_counterexample :
    choose_best_supplier [] none (some 500000) (some 6) =
      Except.error "ValueError: max() arg is an empty sequence" := rfl

/-- C2 (amended): on an empty quote collection the engine raises `ValueError`
(there is no `winner = none` terminal state); on any non-empty collection it
always returns a winner drawn from the full collection, even when no quote
satisfies the constraints. -/
theorem C2_empty_raises (suppliers : List Quote) (c : Option Quote)
    (b dl : Option ℚ) :
    (suppliers = [] → choose_best_supplier suppliers c b dl =
      Except.error "ValueError: max() arg is an empty sequence") ∧
    (suppliers ≠ [] → ∃ r, choose_best_supplier suppliers c b dl = Except.ok r ∧
      r.best ∈ suppliers) := by
  constructor
  · rintro rfl
    rfl
  · intro hne
    obtain ⟨m, hm⟩ := pythonMaxScore_isSome hne
    exact ⟨_, choose_best_supplier_eq_of_max hm c b dl, pythonMaxScore_mem hm⟩

/-- Witness for `C2_empty_raises`: both branches at concrete inputs. -/
theorem C2_witness :
    choose_best_supplier [] none (some 100) (some 5) =
      Except.error "ValueError: max() arg is an empty sequence" ∧
    ∃ r, choose_best_supplier [⟨"A", 10, 1, 1, 0, 50⟩] none (some 100) (some 5) =
        Except.ok r ∧ r.best ∈ [(⟨"A", 10, 1, 1, 0, 50⟩ : Quote)] :=
  ⟨(C2_empty_raises [] none (some 100) (some 5)).1 rfl,
   (C2_empty_raises [⟨"A", 10, 1, 1, 0, 50⟩] none (some 100) (some 5)).2 (by decide)⟩

/-- C3: the claim says selection is permutation-invariant thanks to the
score/adjusted-price/delivery/name tie-break chain.  Counterexample: the code
breaks score ties by input position (`max` keeps the first maximum), so two
equal-score quotes in the two orders give two different winners. -/
theorem C3_counterexample :
    ([⟨"A", 10, 1, 1, 0, 50⟩, ⟨"B", 20, 2, 1, 0, 50⟩] : List Quote).Perm
      [⟨"B", 20, 2, 1, 0, 50⟩, ⟨"A", 10, 1, 1, 0, 50⟩] ∧
    choose_best_supplier [⟨"A", 10, 1, 1, 0, 50⟩, ⟨"B", 20, 2, 1, 0, 50⟩]
        none none none =
      Except.ok ⟨⟨"A", 10, 1, 1, 0, 50⟩, ⟨"A", 10, 1, 1, 0, 50⟩, []⟩ ∧
    choose_best_supplier [⟨"B", 20, 2, 1, 0, 50⟩, ⟨"A", 10, 1, 1, 0, 50⟩]
        none none none =
      Except.ok ⟨⟨"B", 20, 2, 1, 0, 50⟩, ⟨"A", 10, 1, 1, 0, 50⟩, []⟩ ∧
    (⟨"A", 10, 1, 1, 0, 50⟩ : Quote) ≠ ⟨"B", 20, 2, 1, 0, 50⟩ :=
  ⟨List.Perm.swap _ _ _, rfl, rfl, by decide⟩

/-- C3 (amended): selection is deterministic for a fixed input order (the
first quote attaining the maximal score); it is permutation-invariant exactly
when scores distinguish the quotes — for lists with pairwise distinct scores
the winner is the same across every permutation. -/
theorem C3_perm_invariant_of_distinct_scores (l₁ l₂ : List Quote)
    (c₁ c₂ : Option Quote) (b dl : Option ℚ) (hp : l₁.Perm l₂) (hne : l₁ ≠ [])
    (hd : l₁.Pairwise (fun a b => a.score ≠ b.score)) :
    ∃ r₁ r₂, choose_best_supplier l₁ c₁ b dl = Except.ok r₁ ∧
      choose_best_supplier l₂ c₂ b dl = Except.ok r₂ ∧ r₁.best = r₂.best := by
  have hne₂ : l₂ ≠ [] := by
    intro h
    subst h
    exact hne hp.eq_nil
  obtain ⟨m₁, hm₁⟩ := pythonMaxScore_isSome hne
  obtain ⟨m₂, hm₂⟩ := pythonMaxScore_isSome hne₂
  have hmem₁ : m₁ ∈ l₁ := pythonMaxScore_mem hm₁
  have hmem₂ : m₂ ∈ l₁ := hp.mem_iff.mpr (pythonMaxScore_mem hm₂)
  have hscore : m₁.score = m₂.score :=
    le_antisymm (pythonMaxScore_ge hm₂ m₁ (hp.mem_iff.mp hmem₁))
      (pythonMaxScore_ge hm₁ m₂ hmem₂)
  have hsymm : Symmetric (fun a b : Quote => a.score ≠ b.score) :=
    fun a b h hba => h hba.symm
  have heq : m₁ = m₂ := by
    by_contra hne'
    exact hd.forall hsymm hmem₁ hmem₂ hne' hscore
  exact ⟨_, _, choose_best_supplier_eq_of_max hm₁ c₁ b dl,
    choose_best_supplier_eq_of_max hm₂ c₂ b dl, heq⟩

/-- Witness for `C3_perm_invariant_of_distinct_scores` at a concrete swapped
pair with distinct scores. -/
theorem C3_witness :
    ∃ r₁ r₂,
      choose_best_supplier [⟨"A", 10, 1, 1, 0, 60⟩, ⟨"B", 20, 2, 1, 0, 50⟩]
          none none none = Except.ok r₁ ∧
      choose_best_supplier [⟨"B", 20, 2, 1, 0, 50⟩, ⟨"A", 10, 1, 1, 0, 60⟩]
          none none none = Except.ok r₂ ∧
      r₁.best = r₂.best :=
  C3_perm_invariant_of_distinct_scores _ _ none none none none
    (List.Perm.swap _ _ _) (by decide) (by decide)

/-- `config.RETRY_CONFIG`'s shape. -/
structure RetryConfig where
  max_attempts : ℕ
  base_delay : ℚ
  max_delay : ℚ
  exponential_base : ℚ
  deriving DecidableEq

/-- `config.RETRY_CONFIG = {max_attempts: 3, base_delay: 0.5, max_delay: 5.0,
exponential_base: 2}`. -/
def RETRY_CONFIG : RetryConfig := ⟨3, 1/2, 5, 2⟩

/-- `config.VENDOR_TIMEOUT = 10.0` seconds ("max wait for any vendor API").
The constant is declared in `config.py` but never imported or applied by any
code of the repository. -/
def VENDOR_TIMEOUT : ℚ := 10

/-- The capped exponential backoff delay computed by `retry_with_backoff`
after a failed attempt `i` (0-indexed):
`min(base_delay * exponential_base ** attempt, max_delay)`. -/
def backoffDelay (i : ℕ) : ℚ :=
  min (RETRY_CONFIG.base_delay * RETRY_CONFIG.exponential_base ^ i)
    RETRY_CONFIG.max_delay

/-- The loop of `vendors.retry_with_backoff`, with `fuel` attempts remaining
and `attempt` the 0-indexed number of the next attempt.  `f i` is the outcome
of attempt `i` (the awaited call either returns a value or raises, modelled
by `Except`); `j i` is the random jitter `random.uniform(0, delay * 0.1)`
drawn after a failed attempt `i`.  The first component is the Python
return/raise (`Except.error none` models the `raise None` reached when zero
attempts are configured); the second lists the waits slept between attempts:
a failed attempt with `attempt < max_attempts - 1` sleeps
`backoffDelay attempt + j attempt`, the final failed attempt sleeps nothing. -/
def retryGo {α : Type} (f : ℕ → Except String α) (j : ℕ → ℚ) :
    ℕ → ℕ → Except (Option String) (α × ℕ) × List ℚ
  | _, 0 => (Except.error none, [])
  | attempt, fuel + 1 =>
    match f attempt with
    | Except.ok a => (Except.ok (a, attempt + 1), [])
    | Except.error e =>
      if fuel = 0 then (Except.error (some e), [])
      else
        let w := backoffDelay attempt + j attempt
        let r := retryGo f j (attempt + 1) fuel
        (r.1, w :: r.2)

/-- `vendors.retry_with_backoff(func, ...)`: run up to
`RETRY_CONFIG.max_attempts` attempts starting at attempt 0, returning
`(result, attempts_taken)` on the first success or raising the last
exception, together with the backoff waits performed. -/
def retry_with_backoff {α : Type} (f : ℕ → Except String α) (j : ℕ → ℚ) :
    Except (Option String) (α × ℕ) × List ℚ :=
  retryGo f j 0 RETRY_CONFIG.max_attempts

/-- A vendor row as loaded by `vendors.load_vendors_from_csv` (the CSV file
itself is external input; the loaded list is a parameter of the model). -/
structure VendorData where
  name : String
  base_price : ℚ
  price_per_unit : ℚ
  delivery : ℚ
  reliability : ℚ
  penalty_rate : ℚ
  deriving DecidableEq

/-- `vendors.simulate_vendor_api(vendor_data, qty)`.  The latency sleep
affects no returned value and is dropped; the failure draw `random.random()`
is the explicit `draw` parameter: the call raises
`ConnectionError(f"{name} API timeout")` when
`draw < 0.02 + (1 - reliability) * 0.1`, and otherwise returns the quote dict
with `price = round(base_price + qty * price_per_unit, 2)` and
`score = compute_score(price, delivery, reliability)` computed from the
UNROUNDED price. -/
def simulate_vendor_api (v : VendorData) (qty : ℕ) (draw : ℚ) :
    Except String Quote :=
  let failure_threshold := 2 / 100 + (1 - v.reliability) * (1 / 10)
  if draw < failure_threshold then
    Except.error (v.name ++ " API timeout")
  else
    let price := v.base_price + (qty : ℚ) * v.price_per_unit
    Except.ok ⟨v.name, roundTo2 price, v.delivery, v.reliability, v.penalty_rate,
      compute_score price v.delivery v.reliability⟩

/-- The per-vendor fetch metadata dict built by
`vendors.fetch_vendor_with_retry`. -/
structure FetchOutcome where
  vendor : String
  success : Bool
  attempts : ℕ
  error : Option String
  deriving DecidableEq

/-- `vendors.fetch_vendor_with_retry(vendor_data, qty)`: wraps the retried
simulation in a `try/except` so that every outcome — success or exhausted
retries — is returned as data; a failure is reported with
`success = False` and `attempts = RETRY_CONFIG["max_attempts"]`.  `draw i` is
the failure draw of attempt `i`; `j` the jitter draws. -/
def fetch_vendor_with_retry (v : VendorData) (qty : ℕ) (draw : ℕ → ℚ)
    (j : ℕ → ℚ) : Option Quote × FetchOutcome :=
  match (retry_with_backoff (fun i => simulate_vendor_api v qty (draw i)) j).1 with
  | Except.ok (q, attempts) => (some q, ⟨v.name, true, attempts, none⟩)
  | Except.error e => (none, ⟨v.name, false, RETRY_CONFIG.max_attempts, e⟩)

/-- The fan-out of `vendors.get_vendors`: one `fetch_vendor_with_retry` task
per vendor, gathered in vendor-registration order (`asyncio.gather` preserves
task order).  `draw i` / `j i` are the random streams of the task of vendor
`i`, counted from `i₀`. -/
def fetchAll (qty : ℕ) (draw : ℕ → ℕ → ℚ) (j : ℕ → ℕ → ℚ) :
    List VendorData → ℕ → List (Option Quote × FetchOutcome)
  | [], _ => []
  | v :: vs, i => fetch_vendor_with_retry v qty (draw i) (j i) :: fetchAll qty draw j vs (i + 1)

/-- `vendors.get_vendors(qty)` given the list loaded from the CSV: an empty
vendor table yields no suppliers and the single `CSV_LOADER` failure record;
otherwise the per-vendor results are split into the quotes of the successful
fetches and one metadata record per vendor, both in registration order. -/
def get_vendors (vendors : List VendorData) (qty : ℕ) (draw : ℕ → ℕ → ℚ)
    (j : ℕ → ℕ → ℚ) : List Quote × List FetchOutcome :=
  if vendors.isEmpty then
    ([], [⟨"CSV_LOADER", false, 1, some "No vendors found in vendors.csv"⟩])
  else
    let results := fetchAll qty draw j vendors 0
    (results.filterMap Prod.fst, results.map Prod.snd)

/-- The `config.Supplier` dataclass after `__post_init__` has run:
`negotiated_price` is always set. -/
structure Supplier where
  name : String
  price : ℚ
  delivery : ℚ
  reliability : ℚ
  score : ℚ
  negotiated_price : ℚ
  deriving DecidableEq

/-- Construction of `config.Supplier` followed by `__post_init__`: when
`negotiated_price` is not supplied (`None`), it defaults to `price`. -/
def mkSupplier (name : String) (price delivery reliability score : ℚ)
    (negotiated_price : Option ℚ) : Supplier :=
  ⟨name, price, delivery, reliability, score, negotiated_price.getD price⟩

/-- Modelled from the spec: the Price Adjustment Stage ("negotiation", the
`agents` package) is not among the repository files under verification.
Spec §4.4 specifies a deterministic monotonic discount reported as a
percentage per quote, producing
`adjusted_price = price * (1 - discount_percent / 100)`. -/
def negotiate_price (price discount_percent : ℚ) : ℚ :=
  price * (1 - discount_percent / 100)

/-- If the `k` attempts `start..start+k-1` fail and attempt `start+k`
succeeds within the remaining fuel, the retry loop returns the success with
`attempts_taken = start + k + 1`. -/
theorem retryGo_ok {α : Type} (f : ℕ → Except String α) (j : ℕ → ℚ) (q : α) :
    ∀ (k start fuel : ℕ), k < fuel →
      (∀ i, i < k → ∃ e, f (start + i) = Except.error e) →
      f (start + k) = Except.ok q →
      (retryGo f j start fuel).1 = Except.ok (q, start + k + 1) := by
  intro k
  induction k with
  | zero =>
    intro start fuel hk _ hok
    obtain ⟨fuel', rfl⟩ : ∃ fuel', fuel = fuel' + 1 := ⟨fuel - 1, by omega⟩
    rw [Nat.add_zero] at hok
    simp only [retryGo, hok]
  | succ k ih =>
    intro start fuel hk hfail hok
    obtain ⟨fuel', rfl⟩ : ∃ fuel', fuel = fuel' + 1 := ⟨fuel - 1, by omega⟩
    obtain ⟨e, he⟩ := hfail 0 (Nat.succ_pos k)
    rw [Nat.add_zero] at he
    have hf0 : fuel' ≠ 0 := by omega
    have hrec := ih (start + 1) fuel' (by omega)
      (fun i hi => by
        have h := hfail (i + 1) (by omega)
        rwa [show start + (i + 1) = start + 1 + i by omega] at h)
      (by rwa [show start + (k + 1) = start + 1 + k by omega] at hok)
    simp only [retryGo, he, if_neg hf0]
    rw [show start + (k + 1) + 1 = start + 1 + k + 1 by omega]
    exact hrec

/-- If every attempt within the fuel fails, the retry loop raises the error
of the last attempt, `start + fuel - 1`. -/
theorem retryGo_all_fail {α : Type} (f : ℕ → Except String α) (j : ℕ → ℚ)
    (e : ℕ → String) :
    ∀ (fuel start : ℕ), 0 < fuel →
      (∀ i, i < fuel → f (start + i) = Except.error (e (start + i))) →
      (retryGo f j start fuel).1 = Except.error (some (e (start + fuel - 1))) := by
  intro fuel
  induction fuel with
  | zero => intro start h; omega
  | succ fuel ih =>
    intro start _ hfail
    have he0 := hfail 0 (Nat.succ_pos fuel)
    rw [Nat.add_zero] at he0
    by_cases hf : fuel = 0
    · subst hf
      rw [show start + 1 - 1 = start by omega]
      simp [retryGo, he0]
    · have hrec := ih (start + 1) (by omega)
        (fun i hi => by
          have h := hfail (i + 1) (by omega)
          rwa [show start + (i + 1) = start + 1 + i by omega] at h)
      simp only [retryGo, he0, if_neg hf]
      rw [show start + (fuel + 1) - 1 = start + 1 + fuel - 1 by omega]
      exact hrec

/-- C4: the retrying caller with `max_attempts = 3` returns the quote with
`attempts_used = k + 1` when the first `k < 3` attempts fail and attempt `k`
succeeds; when every attempt fails it raises the last attempt's error, and
`fetch_vendor_with_retry` reports that failure as data with
`success = false` and `attempts = max_attempts`. -/
theorem C4_retry_attempt_counts (f : ℕ → Except String Quote) (j : ℕ → ℚ)
    (e : ℕ → String) (q : Quote) (k : ℕ) (v : VendorData) (qty : ℕ)
    (draw : ℕ → ℚ) :
    (k < RETRY_CONFIG.max_attempts →
      (∀ i, i < k → f i = Except.error (e i)) → f k = Except.ok q →
      (retry_with_backoff f j).1 = Except.ok (q, k + 1)) ∧
    ((∀ i, i < RETRY_CONFIG.max_attempts → f i = Except.error (e i)) →
      (retry_with_backoff f j).1 =
        Except.error (some (e (RETRY_CONFIG.max_attempts - 1)))) ∧
    ((∀ i, i < RETRY_CONFIG.max_attempts →
        simulate_vendor_api v qty (draw i) = Except.error (e i)) →
      fetch_vendor_with_retry v qty draw j =
        (none, ⟨v.name, false, RETRY_CONFIG.max_attempts,
          some (e (RETRY_CONFIG.max_attempts - 1))⟩)) := by
  have hall : ∀ (g : ℕ → Except String Quote),
      (∀ i, i < RETRY_CONFIG.max_attempts → g i = Except.error (e i)) →
      (retry_with_backoff g j).1 =
        Except.error (some (e (RETRY_CONFIG.max_attempts - 1))) := by
    intro g hg
    have h := retryGo_all_fail g j e RETRY_CONFIG.max_attempts 0 (by decide)
      (fun i hi => by rw [Nat.zero_add]; exact hg i hi)
    rwa [Nat.zero_add] at h
  refine ⟨?_, hall f, ?_⟩
  · intro hk hfail hok
    have h := retryGo_ok f j q k 0 RETRY_CONFIG.max_attempts hk
      (fun i hi => by rw [Nat.zero_add]; exact ⟨e i, hfail i hi⟩)
      (by rwa [Nat.zero_add])
    rwa [Nat.zero_add] at h
  · intro hsim
    unfold fetch_vendor_with_retry
    rw [hall (fun i => simulate_vendor_api v qty (draw i)) hsim]

/-- Witness for `C4_retry_attempt_counts`: a call failing once then
succeeding returns `attempts_used = 2`; a vendor of reliability 0 whose draws
always fail is reported with `success = false`, `attempts = 3` and its
timeout message. -/
theorem C4_witness :
    (retry_with_backoff
        (fun i => if i = 0 then Except.error "boom"
                  else Except.ok (⟨"V", 10, 1, 1, 0, 50⟩ : Quote))
        (fun _ => 0)).1 =
      Except.ok ((⟨"V", 10, 1, 1, 0, 50⟩ : Quote), 2) ∧
    fetch_vendor_with_retry ⟨"V", 10, 1, 5, 0, 0⟩ 1 (fun _ => 0) (fun _ => 0) =
      (none, ⟨"V", false, RETRY_CONFIG.max_attempts, some "V API timeout"⟩) := by
  constructor
  · exact (C4_retry_attempt_counts
      (fun i => if i = 0 then Except.error "boom"
                else Except.ok (⟨"V", 10, 1, 1, 0, 50⟩ : Quote))
      (fun _ => 0) (fun _ => "boom") ⟨"V", 10, 1, 1, 0, 50⟩ 1
      ⟨"V", 10, 1, 5, 0, 0⟩ 1 (fun _ => 0)).1 (by decide)
      (fun i hi => by
        obtain rfl : i = 0 := by omega
        rfl)
      rfl
  · have h := (C4_retry_attempt_counts
      (fun i => if i = 0 then Except.error "boom"
                else Except.ok (⟨"V", 10, 1, 1, 0, 50⟩ : Quote))
      (fun _ => 0) (fun _ => "V API timeout") ⟨"V", 10, 1, 1, 0, 50⟩ 1
      ⟨"V", 10, 1, 5, 0, 0⟩ 1 (fun _ => 0)).2.2
      (fun i hi => by
        unfold simulate_vendor_api
        norm_num
        decide)
    simpa using h

/-- C6: with every attempt failing, the retrying caller sleeps exactly after
the two non-final attempts — wait `i` is
`min(base_delay * exponential_base^i, max_delay)` plus a jitter of at most
10% of that delay — the final failed attempt is followed by no wait
(`length = max_attempts - 1`), and the base delays are non-decreasing and
capped at `max_delay`. -/
theorem C6_backoff_waits (f : ℕ → Except String Quote) (j : ℕ → ℚ)
    (e : ℕ → String)
    (hj : ∀ i, 0 ≤ j i ∧ j i ≤ backoffDelay i * (1 / 10))
    (hfail : ∀ i, i < RETRY_CONFIG.max_attempts → f i = Except.error (e i)) :
    (retry_with_backoff f j).2 = [backoffDelay 0 + j 0, backoffDelay 1 + j 1] ∧
    (∀ i, backoffDelay i =
      min (RETRY_CONFIG.base_delay * RETRY_CONFIG.exponential_base ^ i)
        RETRY_CONFIG.max_delay) ∧
    (∀ w ∈ (retry_with_backoff f j).2, ∃ i, i < RETRY_CONFIG.max_attempts - 1 ∧
      w = backoffDelay i + j i ∧ backoffDelay i ≤ w ∧
      w ≤ backoffDelay i * (11 / 10)) ∧
    (retry_with_backoff f j).2.length = RETRY_CONFIG.max_attempts - 1 ∧
    (∀ i, backoffDelay i ≤ backoffDelay (i + 1)) ∧
    (∀ i, backoffDelay i ≤ RETRY_CONFIG.max_delay) := by
  have h0 := hfail 0 (by decide)
  have h1 := hfail 1 (by decide)
  have h2 := hfail 2 (by decide)
  have hw : (retry_with_backoff f j).2 =
      [backoffDelay 0 + j 0, backoffDelay 1 + j 1] := by
    show (retryGo f j 0 3).2 = _
    simp [retryGo, h0, h1, h2]
  refine ⟨hw, fun i => rfl, ?_, ?_, ?_, fun i => min_le_right _ _⟩
  · intro w hmem
    rw [hw] at hmem
    have hb0 := hj 0
    have hb1 := hj 1
    rcases List.mem_cons.mp hmem with rfl | hmem2
    · exact ⟨0, by decide, rfl, by linarith [hb0.1], by linarith [hb0.2]⟩
    · rcases List.mem_cons.mp hmem2 with rfl | hmem3
      · exact ⟨1, by decide, rfl, by linarith [hb1.1], by linarith [hb1.2]⟩
      · simp at hmem3
  · rw [hw]
    rfl
  · intro i
    unfold backoffDelay
    apply min_le_min _ le_rfl
    have h : (2 : ℚ) ^ i ≤ 2 ^ (i + 1) := by
      apply pow_le_pow_right₀ (by norm_num) (by omega)
    have hb : RETRY_CONFIG.base_delay = 1 / 2 := rfl
    have he : RETRY_CONFIG.exponential_base = 2 := rfl
    rw [hb, he]
    linarith

/-- Witness for `C6_backoff_waits`: an always-failing call with zero jitter
sleeps exactly the two base delays. -/
theorem C6_witness :
    (retry_with_backoff (fun _ => (Except.error "x" : Except String Quote))
        (fun _ => 0)).2 = [backoffDelay 0 + 0, backoffDelay 1 + 0] ∧
    (retry_with_backoff (fun _ => (Except.error "x" : Except String Quote))
        (fun _ => 0)).2.length = RETRY_CONFIG.max_attempts - 1 := by
  have h := C6_backoff_waits (fun _ => Except.error "x") (fun _ => 0)
    (fun _ => "x")
    (fun i => ⟨le_rfl, by
      have hd : (0 : ℚ) ≤ backoffDelay i := by
        unfold backoffDelay
        have hb : RETRY_CONFIG.base_delay = 1 / 2 := rfl
        have he : RETRY_CONFIG.exponential_base = 2 := rfl
        have hm : RETRY_CONFIG.max_delay = 5 := rfl
        rw [hb, he, hm]
        exact le_min (by positivity) (by norm_num)
      linarith⟩)
    (fun i _ => rfl)
  exact ⟨h.1, h.2.2.2.1⟩

/-- Rounding to two decimals keeps a value of `[0, 100]` inside `[0, 100]`. -/
theorem roundTo2_mem (x : ℚ) (h0 : 0 ≤ x) (h1 : x ≤ 100) :
    0 ≤ roundTo2 x ∧ roundTo2 x ≤ 100 := by
  unfold roundTo2
  rw [round_eq]
  constructor
  · apply div_nonneg _ (by norm_num)
    have h : (0 : ℤ) ≤ ⌊x * 100 + 1 / 2⌋ := Int.floor_nonneg.mpr (by nlinarith)
    exact_mod_cast h
  · rw [div_le_iff₀ (by norm_num : (0 : ℚ) < 100)]
    have hlt : ⌊x * 100 + 1 / 2⌋ < 10001 := by
      apply Int.floor_lt.mpr
      push_cast
      nlinarith
    have hle : ⌊x * 100 + 1 / 2⌋ ≤ 10000 := by omega
    calc ((⌊x * 100 + 1 / 2⌋ : ℤ) : ℚ) ≤ ((10000 : ℤ) : ℚ) := by exact_mod_cast hle
      _ = 100 * 100 := by norm_num

/-- C5: for the configured weights (which sum to 1), every price ≥ 0,
delivery ≥ 0 and reliability in `[0, 1]` yield a score in `[0, 100]` — the
two clamped normalizations stay in `[0, 1]`, so the weighted combination and
its two-decimal rounding stay in range. -/
theorem C5_score_in_range (price delivery reliability : ℚ)
    (hp : 0 ≤ price) (hd : 0 ≤ delivery) (hr0 : 0 ≤ reliability)
    (hr1 : reliability ≤ 1) :
    SCORE_WEIGHTS.price + SCORE_WEIGHTS.delivery + SCORE_WEIGHTS.reliability = 1 ∧
    0 ≤ compute_score price delivery reliability ∧
    compute_score price delivery reliability ≤ 100 := by
  have hwp : SCORE_WEIGHTS.price = 1 / 2 := rfl
  have hwd : SCORE_WEIGHTS.delivery = 3 / 10 := rfl
  have hwr : SCORE_WEIGHTS.reliability = 1 / 5 := rfl
  have hpn0 : (0 : ℚ) ≤ max 0 (1 - price / MAX_PRICE) := le_max_left _ _
  have hpn1 : max 0 (1 - price / MAX_PRICE) ≤ 1 := by
    apply max_le (by norm_num)
    have h : 0 ≤ price / MAX_PRICE := div_nonneg hp (by norm_num [MAX_PRICE])
    linarith
  have hdn0 : (0 : ℚ) ≤ max 0 (1 - delivery / MAX_DELIVERY) := le_max_left _ _
  have hdn1 : max 0 (1 - delivery / MAX_DELIVERY) ≤ 1 := by
    apply max_le (by norm_num)
    have h : 0 ≤ delivery / MAX_DELIVERY := div_nonneg hd (by norm_num [MAX_DELIVERY])
    linarith
  refine ⟨by rw [hwp, hwd, hwr]; norm_num, ?_⟩
  simp only [compute_score]
  rw [hwp, hwd, hwr]
  exact roundTo2_mem _ (by nlinarith) (by nlinarith)

/-- Witness for `C5_score_in_range` at price 100, delivery 5,
reliability 9/10. -/
theorem C5_witness :
    SCORE_WEIGHTS.price + SCORE_WEIGHTS.delivery + SCORE_WEIGHTS.reliability = 1 ∧
    0 ≤ compute_score 100 5 (9 / 10) ∧ compute_score 100 5 (9 / 10) ≤ 100 :=
  C5_score_in_range 100 5 (9 / 10) (by norm_num) (by norm_num) (by norm_num)
    (by norm_num)

/-- C9: a `Supplier` constructed without a negotiated price defaults
`negotiated_price` to `price` (and keeps a supplied one); the spec-modelled
price-adjustment transform never raises the price of a quote with a
non-negative price and a discount percentage in `[0, 100]`. -/
theorem C9_adjusted_price_le (name : String)
    (price delivery reliability score np d : ℚ)
    (hp : 0 ≤ price) (hd0 : 0 ≤ d) (hd1 : d ≤ 100) :
    (mkSupplier name price delivery reliability score none).negotiated_price =
      price ∧
    (mkSupplier name price delivery reliability score (some np)).negotiated_price =
      np ∧
    negotiate_price price d ≤ price := by
  refine ⟨rfl, rfl, ?_⟩
  unfold negotiate_price
  nlinarith [mul_nonneg hp hd0]

/-- Witness for `C9_adjusted_price_le` at price 100 and a 20% discount. -/
theorem C9_witness :
    (mkSupplier "s" 100 3 1 50 none).negotiated_price = 100 ∧
    (mkSupplier "s" 100 3 1 50 (some 77)).negotiated_price = 77 ∧
    negotiate_price 100 20 ≤ 100 :=
  C9_adjusted_price_le "s" 100 3 1 50 77 20 (by norm_num) (by norm_num)
    (by norm_num)

/-- C10: the claim reads the quote's `score` as `compute_score` of the
quote's (two-decimal-rounded) `price` field; the code scores the UNROUNDED
price.  Counterexample at base price 106.7146, zero per-unit price, delivery
3, reliability 0: the quote carries price 106.71 and score 73.56, but
`compute_score` of the rounded price 106.71 is 73.57.  The input is chosen
away from the two-decimal rounding boundary 73.565 on both sides (the
unrounded-price score is below it by about 1.9e-8, the rounded-price score
above it by about 2.6e-7, both far above IEEE double rounding error of the
source's float evaluation), so the exact rational model and the program's
float arithmetic agree on both rounded scores. -/
theorem C10_counterexample :
    simulate_vendor_api ⟨"V", 1067146 / 10000, 0, 3, 0, 0⟩ 1 1 =
      Except.ok ⟨"V", 10671 / 100, 3, 0, 0, 1839 / 25⟩ ∧
    compute_score (10671 / 100) 3 0 = 7357 / 100 ∧
    (1839 / 25 : ℚ) ≠ 7357 / 100 := by
  refine ⟨?_, ?_, by norm_num⟩
  · unfold simulate_vendor_api
    rw [if_neg (by norm_num)]
    have hp : roundTo2 (1067146 / 10000 + ((1 : ℕ) : ℚ) * 0) = 10671 / 100 := by
      unfold roundTo2
      rw [round_eq]
      norm_num
    have hs : compute_score (1067146 / 10000 + ((1 : ℕ) : ℚ) * 0) 3 0 = 1839 / 25 := by
      simp only [compute_score, roundTo2, round_eq, MAX_PRICE, MAX_DELIVERY,
        SCORE_WEIGHTS]
      norm_num
    dsimp only
    rw [hp, hs]
  · simp only [compute_score, roundTo2, round_eq, MAX_PRICE, MAX_DELIVERY,
      SCORE_WEIGHTS]
    norm_num

/-- C10 (amended): every quote returned by a successful simulated vendor
call carries `price = round(base_price + qty * price_per_unit, 2)`, the
vendor's delivery/reliability/penalty data, and
`score = compute_score` applied to the UNROUNDED price
`base_price + qty * price_per_unit` — quotes enter the pipeline already
scored, but the stored two-decimal price and the scored price differ by the
rounding. -/
theorem C10_quote_fields (v : VendorData) (qty : ℕ) (draw : ℚ) (q : Quote)
    (h : simulate_vendor_api v qty draw = Except.ok q) :
    q.name = v.name ∧
    q.price = roundTo2 (v.base_price + (qty : ℚ) * v.price_per_unit) ∧
    q.delivery = v.delivery ∧ q.reliability = v.reliability ∧
    q.penalty_rate = v.penalty_rate ∧
    q.score = compute_score (v.base_price + (qty : ℚ) * v.price_per_unit)
      v.delivery v.reliability := by
  unfold simulate_vendor_api at h
  by_cases hc : draw < 2 / 100 + (1 - v.reliability) * (1 / 10)
  · rw [if_pos hc] at h
    exact absurd h (by simp)
  · rw [if_neg hc] at h
    cases h
    exact ⟨rfl, rfl, rfl, rfl, rfl, rfl⟩

/-- Witness for `C10_quote_fields` at a concrete successful call. -/
theorem C10_witness :
    ∃ q, simulate_vendor_api ⟨"W", 100, 2, 5, 1, 0⟩ 3 1 = Except.ok q ∧
      q.name = "W" ∧ q.price = roundTo2 (100 + ((3 : ℕ) : ℚ) * 2) ∧
      q.delivery = 5 ∧ q.reliability = 1 ∧ q.penalty_rate = 0 ∧
      q.score = compute_score (100 + ((3 : ℕ) : ℚ) * 2) 5 1 := by
  have hsim : simulate_vendor_api ⟨"W", 100, 2, 5, 1, 0⟩ 3 1 =
      Except.ok ⟨"W", roundTo2 (100 + ((3 : ℕ) : ℚ) * 2), 5, 1, 0,
        compute_score (100 + ((3 : ℕ) : ℚ) * 2) 5 1⟩ := by
    unfold simulate_vendor_api
    rw [if_neg (by norm_num)]
  exact ⟨_, hsim, C10_quote_fields _ 3 1 _ hsim⟩

/-- The fan-out produces one result per vendor. -/
theorem fetchAll_length (qty : ℕ) (draw j : ℕ → ℕ → ℚ) :
    ∀ (vs : List VendorData) (i : ℕ),
      (fetchAll qty draw j vs i).length = vs.length := by
  intro vs
  induction vs with
  | nil => intro i; rfl
  | cons v vs ih =>
    intro i
    simp [fetchAll, ih (i + 1)]

/-- The result in slot `k` of the fan-out is the fetch of vendor `k`, run on
that vendor's own random streams. -/
theorem fetchAll_get (qty : ℕ) (draw j : ℕ → ℕ → ℚ) :
    ∀ (vs : List VendorData) (i k : ℕ) (hk : k < vs.length)
      (hk2 : k < (fetchAll qty draw j vs i).length),
      (fetchAll qty draw j vs i).get ⟨k, hk2⟩ =
        fetch_vendor_with_retry (vs.get ⟨k, hk⟩) qty (draw (i + k)) (j (i + k)) := by
  intro vs
  induction vs with
  | nil =>
    intro i k hk
    exact absurd hk (by simp)
  | cons v vs ih =>
    intro i k hk hk2
    cases k with
    | zero => simp [fetchAll]
    | succ k =>
      have hk' : k < vs.length := by simpa using hk
      have hk2' : k < (fetchAll qty draw j vs (i + 1)).length := by
        simpa [fetchAll] using hk2
      show (fetchAll qty draw j vs (i + 1)).get ⟨k, hk2'⟩ = _
      rw [ih (i + 1) k hk' hk2']
      rw [show i + 1 + k = i + (k + 1) by omega]
      rfl

/-- On a non-empty registry `get_vendors` returns the splitting of the
per-vendor fan-out results. -/
theorem get_vendors_eq (vendors : List VendorData) (qty : ℕ)
    (draw j : ℕ → ℕ → ℚ) (hne : vendors ≠ []) :
    get_vendors vendors qty draw j =
      ((fetchAll qty draw j vendors 0).filterMap Prod.fst,
       (fetchAll qty draw j vendors 0).map Prod.snd) := by
  unfold get_vendors
  rw [if_neg]
  simp [List.isEmpty_iff, hne]

/-- A vendor all of whose attempts fail fetches no quote and reports
`success = false` with `attempts = max_attempts` and the last error. -/
theorem fetch_vendor_all_fail (v : VendorData) (qty : ℕ) (dr jj : ℕ → ℚ)
    (err : ℕ → String)
    (hfail : ∀ a, a < RETRY_CONFIG.max_attempts →
      simulate_vendor_api v qty (dr a) = Except.error (err a)) :
    fetch_vendor_with_retry v qty dr jj =
      (none, ⟨v.name, false, RETRY_CONFIG.max_attempts,
        some (err (RETRY_CONFIG.max_attempts - 1))⟩) := by
  unfold fetch_vendor_with_retry
  have h := retryGo_all_fail (fun i => simulate_vendor_api v qty (dr i)) jj err
    RETRY_CONFIG.max_attempts 0 (by decide)
    (fun i hi => by rw [Nat.zero_add]; exact hfail i hi)
  rw [Nat.zero_add] at h
  rw [show retry_with_backoff (fun i => simulate_vendor_api v qty (dr i)) jj =
        retryGo (fun i => simulate_vendor_api v qty (dr i)) jj 0
          RETRY_CONFIG.max_attempts from rfl]
  rw [h]

/-- C7: for every non-empty vendor registry, the orchestrator returns (as
data, never as a raised exception) exactly one `FetchOutcome` per vendor in
registration order; slot `k` is the fetch of vendor `k` run on its own random
streams only, so one vendor's failure cannot alter another vendor's entry; a
vendor whose every attempt fails contributes `success = false`,
`attempts = max_attempts` and no quote; and the quote list is exactly the
successful fetches' quotes in registration order. -/
theorem C7_per_vendor_outcomes (vendors : List VendorData) (qty : ℕ)
    (draw j : ℕ → ℕ → ℚ) (hne : vendors ≠ []) :
    (get_vendors vendors qty draw j).2.length = vendors.length ∧
    (∀ k (hk : k < vendors.length)
        (hk2 : k < (get_vendors vendors qty draw j).2.length),
      (get_vendors vendors qty draw j).2.get ⟨k, hk2⟩ =
        (fetch_vendor_with_retry (vendors.get ⟨k, hk⟩) qty (draw k) (j k)).2 ∧
      ((get_vendors vendors qty draw j).2.get ⟨k, hk2⟩).vendor =
        (vendors.get ⟨k, hk⟩).name) ∧
    (∀ k (hk : k < vendors.length)
        (hk2 : k < (get_vendors vendors qty draw j).2.length)
        (err : ℕ → String),
      (∀ a, a < RETRY_CONFIG.max_attempts →
        simulate_vendor_api (vendors.get ⟨k, hk⟩) qty (draw k a) =
          Except.error (err a)) →
      ((get_vendors vendors qty draw j).2.get ⟨k, hk2⟩).success = false ∧
      ((get_vendors vendors qty draw j).2.get ⟨k, hk2⟩).attempts =
        RETRY_CONFIG.max_attempts ∧
      (fetch_vendor_with_retry (vendors.get ⟨k, hk⟩) qty (draw k) (j k)).1 =
        none) ∧
    (get_vendors vendors qty draw j).1 =
      (fetchAll qty draw j vendors 0).filterMap Prod.fst := by
  have hgv := get_vendors_eq vendors qty draw j hne
  have hget : ∀ k (hk : k < vendors.length)
      (hk2 : k < (get_vendors vendors qty draw j).2.length),
      (get_vendors vendors qty draw j).2.get ⟨k, hk2⟩ =
        (fetch_vendor_with_retry (vendors.get ⟨k, hk⟩) qty (draw k) (j k)).2 := by
    intro k hk hk2
    have hk3 : k < (fetchAll qty draw j vendors 0).length := by
      rw [fetchAll_length]
      exact hk
    have hmap : (get_vendors vendors qty draw j).2.get ⟨k, hk2⟩ =
        Prod.snd ((fetchAll qty draw j vendors 0).get ⟨k, hk3⟩) := by
      have h2 := hgv
      revert hk2
      rw [h2]
      intro hk2
      simp
    rw [hmap, fetchAll_get qty draw j vendors 0 k hk hk3, Nat.zero_add]
  refine ⟨by rw [hgv]; simp [fetchAll_length], ?_, ?_, by rw [hgv]⟩
  · intro k hk hk2
    refine ⟨hget k hk hk2, ?_⟩
    rw [hget k hk hk2]
    unfold fetch_vendor_with_retry
    cases hres : (retry_with_backoff
        (fun i => simulate_vendor_api (vendors.get ⟨k, hk⟩) qty (draw k i))
        (j k)).1 with
    | ok a =>
      cases a with
      | mk q attempts => rfl
    | error e => rfl
  · intro k hk hk2 err hfail
    have hff := fetch_vendor_all_fail (vendors.get ⟨k, hk⟩) qty (draw k) (j k)
      err hfail
    rw [hget k hk hk2, hff]
    exact ⟨rfl, rfl, rfl⟩

/-- Witness for `C7_per_vendor_outcomes` on a concrete two-vendor registry. -/
theorem C7_witness :
    ((get_vendors [⟨"A", 10, 1, 3, 1, 0⟩, ⟨"B", 20, 2, 4, 0, 0⟩] 1
        (fun _ _ => 1) (fun _ _ => 0)).2.length = 2) ∧
    ((get_vendors [⟨"A", 10, 1, 3, 1, 0⟩, ⟨"B", 20, 2, 4, 0, 0⟩] 1
        (fun _ _ => 1) (fun _ _ => 0)).1 =
      (fetchAll 1 (fun _ _ => 1) (fun _ _ => 0)
        [⟨"A", 10, 1, 3, 1, 0⟩, ⟨"B", 20, 2, 4, 0, 0⟩] 0).filterMap Prod.fst) := by
  have h := C7_per_vendor_outcomes [⟨"A", 10, 1, 3, 1, 0⟩, ⟨"B", 20, 2, 4, 0, 0⟩]
    1 (fun _ _ => 1) (fun _ _ => 0) (by decide)
  exact ⟨h.1, h.2.2.2⟩

end VendorX
